import Mathlib

/-!
Verification of the geographic sampling and bounded-concurrency discovery engine
of `1_get_panoid_info.py` (Streetview panorama scraping).

The Python source is shallowly embedded: pure float arithmetic is modelled over
`ℝ` (for the geodesy and grid code) and over `ℚ` (for the CSV ingestion and the
retry delays, where exact evaluation matters); Python exceptions are modelled
with `Except`/`Option`; the stateful worker loop is modelled as a fold over the
point list; the async worker pool is modelled as a small-step interleaving
relation.
-/

namespace Panoid

open Real

/-- `math.radians(x)`: degrees to radians, `x * pi / 180`. -/
noncomputable def radians (x : ℝ) : ℝ := x * (Real.pi / 180)

/-- `math.atan2(y, x)`, modelled as the argument of the complex number
`x + y*I` (this is exactly the mathematical atan2 on all of ℝ², with
`atan2 0 0 = 0` as in Python). -/
noncomputable def atan2 (y x : ℝ) : ℝ := Complex.arg ⟨x, y⟩

/-- The intermediate value `a` of `distance_km` (source lines 25-28):
`sin(dlat/2)**2 + cos(lat1)*cos(lat2)*sin(dlon/2)**2` where
`dlat = lat2 - lat1`, `dlon = lon2 - lon1` with all four coordinates
converted by `math.radians`. -/
noncomputable def havA (p1 p2 : ℝ × ℝ) : ℝ :=
  Real.sin ((radians p2.1 - radians p1.1) / 2) ^ 2 +
    Real.cos (radians p1.1) * Real.cos (radians p2.1) *
      Real.sin ((radians p2.2 - radians p1.2) / 2) ^ 2

/-- `distance_km(p1, p2)` (source lines 17-30): haversine distance,
`R * c` with `R = 6373.0` and `c = 2 * atan2(sqrt(a), sqrt(1-a))`. -/
noncomputable def distance_km (p1 p2 : ℝ × ℝ) : ℝ :=
  6373 * (2 * atan2 (Real.sqrt (havA p1 p2)) (Real.sqrt (1 - havA p1 p2)))

lemma sin_sq_swap (u v : ℝ) :
    Real.sin ((u - v) / 2) ^ 2 = Real.sin ((v - u) / 2) ^ 2 := by
  rw [show (u - v) / 2 = -((v - u) / 2) by ring, Real.sin_neg]
  ring

lemma havA_comm (p1 p2 : ℝ × ℝ) : havA p1 p2 = havA p2 p1 := by
  unfold havA
  rw [sin_sq_swap (radians p2.1) (radians p1.1),
    sin_sq_swap (radians p2.2) (radians p1.2)]
  ring

lemma havA_self (p : ℝ × ℝ) : havA p p = 0 := by
  simp [havA]

lemma distance_km_self (p : ℝ × ℝ) : distance_km p p = 0 := by
  unfold distance_km atan2
  rw [havA_self]
  rw [Complex.arg_of_re_nonneg (by simp)]
  simp

lemma distance_km_comm (a b : ℝ × ℝ) : distance_km a b = distance_km b a := by
  unfold distance_km
  rw [havA_comm]

/-- `y ≤ arcsin y` on `[0, 1]`. -/
lemma self_le_arcsin {y : ℝ} (h0 : 0 ≤ y) (h1 : y ≤ 1) : y ≤ Real.arcsin y := by
  have h2 : Real.sin (Real.arcsin y) = y := Real.sin_arcsin (by linarith) h1
  have h3 : 0 ≤ Real.arcsin y := Real.arcsin_nonneg.mpr h0
  rcases eq_or_lt_of_le h3 with h4 | h4
  · rw [← h4] at h2 ⊢
    simpa using h2.symm.le
  · have h5 := Real.sin_lt h4
    rw [h2] at h5
    exact h5.le

/-- When `0 ≤ a ≤ 1`, the `atan2`-based haversine formula collapses to an
arcsine: `distance_km p1 p2 = 6373 * (2 * arcsin (sqrt a))`. -/
lemma distance_km_eq_arcsin (p1 p2 : ℝ × ℝ) (h0 : 0 ≤ havA p1 p2)
    (h1 : havA p1 p2 ≤ 1) :
    distance_km p1 p2 = 6373 * (2 * Real.arcsin (Real.sqrt (havA p1 p2))) := by
  unfold distance_km atan2
  rw [Complex.arg_of_re_nonneg (by simp)]
  have habs :
      Complex.abs ⟨Real.sqrt (1 - havA p1 p2), Real.sqrt (havA p1 p2)⟩ = 1 := by
    rw [Complex.abs_apply, Complex.normSq_mk,
      Real.mul_self_sqrt (by linarith), Real.mul_self_sqrt h0]
    simp
  rw [habs]
  simp

/-- C7: `distance_km` is reflexively zero and symmetric. -/
theorem distance_km_refl_symm :
    (∀ p : ℝ × ℝ, distance_km p p = 0) ∧
      (∀ a b : ℝ × ℝ, distance_km a b = distance_km b a) :=
  ⟨distance_km_self, distance_km_comm⟩

/-! ### Tabular ingestion (`build_points_from_csv`, source lines 33-61) -/

/-- ASCII lowercasing, modelling Python `str.lower()` on the ASCII header
names the source matches against. -/
def lowerStr (s : String) : String := String.mk (s.data.map Char.toLower)

/-- The column lookup `{h.lower(): h for h in fieldnames}.get(name)`
(source lines 38-40): the *last* header whose lowercasing equals `name`,
since later dict-comprehension entries overwrite earlier ones. -/
def findCol (headers : List String) (name : String) : Option String :=
  (headers.filter (fun h => lowerStr h == name)).getLast?

/-- One `csv.DictReader` row is an association list from header name to cell
text; `float(...)` string parsing is Python stdlib code, abstracted as `pf`.
A row contributes a point exactly when both its latitude and longitude cells
are present and parse (source lines 44-50); any failure skips the row. -/
def parseRow (pf : String → Option ℚ) (latCol lonCol : String)
    (row : List (String × String)) : Option (ℚ × ℚ) :=
  match (row.lookup latCol).bind pf, (row.lookup lonCol).bind pf with
  | some la, some lo => some (la, lo)
  | _, _ => none

/-- `round(x, 6)`: round to 6 decimal places. Python rounds ties to even;
none of the inputs below sits on a tie, where the two conventions agree, so
Mathlib's `round` is used. -/
def round6 (x : ℚ) : ℚ := ((round (x * 1000000) : ℤ) : ℚ) / 1000000

/-- The dedup key `(round(lat, 6), round(lon, 6))` (source line 56). -/
def roundKey (p : ℚ × ℚ) : ℚ × ℚ := (round6 p.1, round6 p.2)

/-- The dedup loop of `build_points_from_csv` (source lines 53-60): walk the
parsed points, skip a point whose rounded key is already in `seen`, otherwise
record the key and keep the point with its original coordinates. -/
def dedupeRounded (seen : Finset (ℚ × ℚ)) : List (ℚ × ℚ) → List (ℚ × ℚ)
  | [] => []
  | p :: rest =>
    if roundKey p ∈ seen then dedupeRounded seen rest
    else p :: dedupeRounded (insert (roundKey p) seen) rest

/-- `build_points_from_csv` (source lines 33-61), with the file contents
given as a header list and a list of `DictReader` rows: raises (`.error`)
when no case-insensitive `latitude`/`longitude` column exists, otherwise
parses the rows (skipping unparseable ones) and dedups by 6-decimal
rounding. -/
def build_points_from_csv (pf : String → Option ℚ) (headers : List String)
    (rows : List (List (String × String))) : Except String (List (ℚ × ℚ)) :=
  match findCol headers "latitude", findCol headers "longitude" with
  | some latCol, some lonCol =>
    .ok (dedupeRounded ∅ (rows.filterMap (parseRow pf latCol lonCol)))
  | _, _ => .error "CSV must have latitude and longitude columns"

/-- C4: ingestion fails with the configuration error exactly when the header
lacks a case-insensitive latitude or longitude column; with both columns
present, a row that fails numeric parsing is silently skipped and the points
produced from the remaining rows are unaffected. -/
theorem csv_error_iff_and_row_skip :
    (∀ (pf : String → Option ℚ) (headers : List String) rows,
      (∃ e, build_points_from_csv pf headers rows = .error e) ↔
        (findCol headers "latitude" = none ∨
          findCol headers "longitude" = none)) ∧
    (∀ (pf : String → Option ℚ) (headers : List String)
        rows1 rows2 r latCol lonCol,
      findCol headers "latitude" = some latCol →
      findCol headers "longitude" = some lonCol →
      parseRow pf latCol lonCol r = none →
      build_points_from_csv pf headers (rows1 ++ r :: rows2) =
        build_points_from_csv pf headers (rows1 ++ rows2)) := by
  constructor
  · intro pf headers rows
    unfold build_points_from_csv
    rcases h1 : findCol headers "latitude" with _ | latCol <;>
      rcases h2 : findCol headers "longitude" with _ | lonCol <;> simp
  · intro pf headers rows1 rows2 r latCol lonCol h1 h2 hr
    unfold build_points_from_csv
    rw [h1, h2]
    simp [List.filterMap_append, hr]

/-- A tiny concrete `float` parser used by witnesses: parses only the cell
text `"1.5"`. -/
def pfW : String → Option ℚ := fun s => if s = "1.5" then some (3 / 2) else none

/-- Witness for C4 at a concrete header/row set: the columns are found, the
middle row fails to parse, and dropping it leaves the output unchanged. -/
theorem csv_error_iff_and_row_skip_witness :
    findCol ["latitude", "longitude"] "latitude" = some "latitude" ∧
    findCol ["latitude", "longitude"] "longitude" = some "longitude" ∧
    parseRow pfW "latitude" "longitude"
      [("latitude", "oops"), ("longitude", "1.5")] = none ∧
    build_points_from_csv pfW ["latitude", "longitude"]
        ([[("latitude", "1.5"), ("longitude", "1.5")]] ++
          [("latitude", "oops"), ("longitude", "1.5")] :: []) =
      build_points_from_csv pfW ["latitude", "longitude"]
        ([[("latitude", "1.5"), ("longitude", "1.5")]] ++ []) :=
  ⟨by decide, by decide, by decide,
    csv_error_iff_and_row_skip.2 pfW ["latitude", "longitude"]
      [[("latitude", "1.5"), ("longitude", "1.5")]] []
      [("latitude", "oops"), ("longitude", "1.5")] "latitude" "longitude"
      (by decide) (by decide) (by decide)⟩

/-- Parser table for the dedup counterexample rows: latitudes 0.00000049 and
0.00000051, longitude 0. -/
def pfC6 : String → Option ℚ := fun s =>
  if s = "a" then some (49 / 100000000)
  else if s = "b" then some (51 / 100000000)
  else if s = "z" then some 0
  else none

def rowA : List (String × String) := [("latitude", "a"), ("longitude", "z")]

def rowB : List (String × String) := [("latitude", "b"), ("longitude", "z")]

/-- Helper to evaluate `round6` at concrete rationals through the two-sided
floor characterization of `round`. -/
lemma round6_eq {x : ℚ} {z : ℤ} (h1 : (z : ℚ) ≤ x * 1000000 + 1 / 2)
    (h2 : x * 1000000 + 1 / 2 < (z : ℚ) + 1) :
    round6 x = (z : ℚ) / 1000000 := by
  have h : round (x * 1000000) = z := by
    rw [round_eq, Int.floor_eq_iff]
    exact ⟨h1, h2⟩
  unfold round6
  rw [h]

lemma round6_49e8 : round6 (49 / 100000000) = 0 := by
  rw [round6_eq (z := 0) (by norm_num) (by norm_num)]
  norm_num

lemma round6_51e8 : round6 (51 / 100000000) = 1 / 1000000 := by
  rw [round6_eq (z := 1) (by norm_num) (by norm_num)]
  norm_num

lemma round6_zero : round6 0 = 0 := by
  rw [round6_eq (z := 0) (by norm_num) (by norm_num)]
  norm_num

/-- C6 counterexample: two rows whose latitudes 0.00000049 and 0.00000051
agree on every decimal place up to and including the 6th (both lie in
`[0, 0.000001)`, so the first six decimal digits are all 0) — i.e. they
differ only beyond the 6th decimal place — yet ingestion keeps both points
instead of collapsing them to one, because 0.49e-6 rounds down to 0 and
0.51e-6 rounds up to 1e-6. -/
theorem csv_dedup_counterexample :
    ((0 : ℚ) ≤ 49 / 100000000 ∧ (49 / 100000000 : ℚ) < 1 / 1000000) ∧
      ((0 : ℚ) ≤ 51 / 100000000 ∧ (51 / 100000000 : ℚ) < 1 / 1000000) ∧
      (49 / 100000000 : ℚ) ≠ 51 / 100000000 ∧
      build_points_from_csv pfC6 ["latitude", "longitude"] [rowA, rowB] =
        .ok [(49 / 100000000, 0), (51 / 100000000, 0)] := by
  refine ⟨by norm_num, by norm_num, by norm_num, ?_⟩
  have hlat : findCol ["latitude", "longitude"] "latitude" = some "latitude" :=
    by decide
  have hlon : findCol ["latitude", "longitude"] "longitude" =
      some "longitude" := by decide
  unfold build_points_from_csv
  simp only [hlat, hlon]
  have hrows : [rowA, rowB].filterMap (parseRow pfC6 "latitude" "longitude") =
      [((49 / 100000000 : ℚ), (0 : ℚ)), (51 / 100000000, 0)] := by
    simp [rowA, rowB, parseRow, pfC6, List.lookup]
  rw [hrows]
  have hk1 : roundKey ((49 / 100000000 : ℚ), (0 : ℚ)) = (0, 0) := by
    simp [roundKey, round6_49e8, round6_zero]
  have hk2 : roundKey ((51 / 100000000 : ℚ), (0 : ℚ)) = (1 / 1000000, 0) := by
    simp [roundKey, round6_51e8, round6_zero]
  simp [dedupeRounded, hk1, hk2]

/-- Specification-level dedup: keep the first occurrence of each rounded key,
dropping every later point with the same key. -/
def firstPerKey : List (ℚ × ℚ) → List (ℚ × ℚ)
  | [] => []
  | p :: rest =>
    p :: firstPerKey (rest.filter (fun q => decide (roundKey q ≠ roundKey p)))
termination_by l => l.length
decreasing_by
  simp only [List.length_cons]
  exact Nat.lt_succ_of_le (List.length_filter_le _ _)

lemma dedupeRounded_eq_firstPerKey :
    ∀ (n : ℕ) (l : List (ℚ × ℚ)), l.length ≤ n → ∀ seen,
      dedupeRounded seen l =
        firstPerKey (l.filter (fun p => decide (roundKey p ∉ seen))) := by
  intro n
  induction n with
  | zero =>
    intro l hl seen
    rw [Nat.le_zero, List.length_eq_zero] at hl
    subst hl
    simp [dedupeRounded, firstPerKey]
  | succ n ih =>
    intro l hl seen
    match l with
    | [] => simp [dedupeRounded, firstPerKey]
    | p :: rest =>
      have hrest : rest.length ≤ n := by
        simp only [List.length_cons] at hl
        omega
      by_cases hp : roundKey p ∈ seen
      · have h1 : dedupeRounded seen (p :: rest) = dedupeRounded seen rest := by
          simp [dedupeRounded, hp]
        have h2 : (p :: rest).filter (fun q => decide (roundKey q ∉ seen)) =
            rest.filter (fun q => decide (roundKey q ∉ seen)) := by
          simp [List.filter_cons, hp]
        rw [h1, h2]
        exact ih rest hrest seen
      · have h1 : dedupeRounded seen (p :: rest) =
            p :: dedupeRounded (insert (roundKey p) seen) rest := by
          simp [dedupeRounded, hp]
        have h2 : (p :: rest).filter (fun q => decide (roundKey q ∉ seen)) =
            p :: rest.filter (fun q => decide (roundKey q ∉ seen)) := by
          simp [List.filter_cons, hp]
        have h3 :
            firstPerKey
                (p :: rest.filter (fun q => decide (roundKey q ∉ seen))) =
              p ::
                firstPerKey
                  ((rest.filter (fun q => decide (roundKey q ∉ seen))).filter
                    (fun q => decide (roundKey q ≠ roundKey p))) := by
          simp [firstPerKey]
        rw [h1, h2, h3, ih rest hrest (insert (roundKey p) seen),
          List.filter_filter]
        congr 1
        congr 1
        apply List.filter_congr
        intro q _
        by_cases h4 : roundKey q = roundKey p <;>
          by_cases h5 : roundKey q ∈ seen <;>
            simp [h4, h5, Finset.mem_insert]

/-- C6 amended: ingestion dedups by the key obtained from rounding both
coordinates to 6 decimal places, keeping only the first occurrence per
rounded key with its original unrounded values; two rows collapse to one
point exactly when both coordinates round to the same 6-decimal key (which
rows differing only beyond the 6th decimal place may fail to do near a
rounding boundary). -/
theorem csv_dedup_amended :
    (∀ (pf : String → Option ℚ) headers rows latCol lonCol,
      findCol headers "latitude" = some latCol →
      findCol headers "longitude" = some lonCol →
      build_points_from_csv pf headers rows =
        .ok (firstPerKey (rows.filterMap (parseRow pf latCol lonCol)))) ∧
    (∀ p q : ℚ × ℚ, roundKey p = roundKey q → dedupeRounded ∅ [p, q] = [p]) ∧
    (∀ p q : ℚ × ℚ, roundKey p ≠ roundKey q →
      dedupeRounded ∅ [p, q] = [p, q]) := by
  refine ⟨?_, ?_, ?_⟩
  · intro pf headers rows latCol lonCol h1 h2
    unfold build_points_from_csv
    simp only [h1, h2]
    rw [dedupeRounded_eq_firstPerKey
      (rows.filterMap (parseRow pf latCol lonCol)).length _ le_rfl ∅]
    simp
  · intro p q h
    simp [dedupeRounded, h.symm]
  · intro p q h
    simp [dedupeRounded, Ne.symm h]

lemma round6_1e7 : round6 (1 / 10000000) = 0 := by
  rw [round6_eq (z := 0) (by norm_num) (by norm_num)]
  norm_num

lemma round6_1e2 : round6 (1 / 100) = 1 / 100 := by
  rw [round6_eq (z := 10000) (by norm_num) (by norm_num)]
  norm_num

/-- Witness for C6 amended: at concrete inputs, two points rounding to the
same key collapse and two points with different keys stay distinct. -/
theorem csv_dedup_amended_witness :
    roundKey ((0 : ℚ), (0 : ℚ)) = roundKey (1 / 10000000, 0) ∧
      dedupeRounded ∅ [((0 : ℚ), (0 : ℚ)), (1 / 10000000, 0)] =
        [((0 : ℚ), (0 : ℚ))] ∧
      roundKey ((0 : ℚ), (0 : ℚ)) ≠ roundKey (1 / 100, 0) ∧
      dedupeRounded ∅ [((0 : ℚ), (0 : ℚ)), (1 / 100, 0)] =
        [((0 : ℚ), (0 : ℚ)), (1 / 100, 0)] := by
  have hk : roundKey ((0 : ℚ), (0 : ℚ)) = roundKey (1 / 10000000, 0) := by
    simp only [roundKey, round6_zero, round6_1e7]
  have hk2 : roundKey ((0 : ℚ), (0 : ℚ)) ≠ roundKey (1 / 100, 0) := by
    simp only [roundKey, round6_zero, round6_1e2]
    norm_num [Prod.ext_iff]
  exact ⟨hk, csv_dedup_amended.2.1 _ _ hk, hk2, csv_dedup_amended.2.2 _ _ hk2⟩

/-! ### Grid generation (`build_points_from_grid`, source lines 64-78) -/

/-- The `(resolution+1) × (resolution+1)` lattice of candidate points
(source lines 66-76) with `top_left`/`bottom_right` inlined:
`bottom_right = (center[0] + radius_km/70, center[1] - radius_km/70)`,
`lat_diff = top_left[0] - bottom_right[0]`,
`lon_diff = top_left[1] - bottom_right[1]`, and the point for grid cell
`(x, y)` is `(bottom_right[0] + x*lat_diff/resolution,
bottom_right[1] + y*lon_diff/resolution)`, in `itertools.product` order. -/
noncomputable def gridLattice (center : ℝ × ℝ) (radius_km : ℝ)
    (resolution : ℕ) : List (ℝ × ℝ) :=
  ((List.range (resolution + 1)) ×ˢ (List.range (resolution + 1))).map fun xy =>
    ((center.1 + radius_km / 70) +
        (xy.1 : ℝ) * ((center.1 - radius_km / 70) - (center.1 + radius_km / 70)) /
          (resolution : ℝ),
      (center.2 - radius_km / 70) +
        (xy.2 : ℝ) * ((center.2 + radius_km / 70) - (center.2 - radius_km / 70)) /
          (resolution : ℝ))

open Classical in
/-- The radius filter of source line 77:
`[p for p in pts if distance_km(p, center) <= radius_km]`. -/
noncomputable def radiusFilter (center : ℝ × ℝ) (radius_km : ℝ)
    (pts : List (ℝ × ℝ)) : List (ℝ × ℝ) :=
  pts.filter fun p => decide (distance_km p center ≤ radius_km)

/-- `build_points_from_grid` (source lines 64-78): the lattice filtered to
the points within `radius_km` of the center. -/
noncomputable def build_points_from_grid (center : ℝ × ℝ) (radius_km : ℝ)
    (resolution : ℕ) : List (ℝ × ℝ) :=
  radiusFilter center radius_km (gridLattice center radius_km resolution)

open Classical in
/-- Python float division, which raises `ZeroDivisionError` on a zero
divisor. -/
noncomputable def pydiv (a b : ℝ) : Except Unit ℝ :=
  if b = 0 then .error () else .ok (a / b)

/-- `build_points_from_grid` with Python division semantics made explicit
(source lines 72-78): each lattice coordinate computes
`x * lat_diff / resolution`, so the comprehension raises (`.error`) as soon
as a division by zero occurs; the radius filter runs only if the whole
comprehension succeeded. -/
noncomputable def build_points_from_gridE (center : ℝ × ℝ) (radius_km : ℝ)
    (resolution : ℕ) : Except Unit (List (ℝ × ℝ)) := do
  let pts ← ((List.range (resolution + 1)) ×ˢ (List.range (resolution + 1))).mapM
    (fun xy => do
      let la ← pydiv
        ((xy.1 : ℝ) * ((center.1 - radius_km / 70) - (center.1 + radius_km / 70)))
        (resolution : ℝ)
      let lo ← pydiv
        ((xy.2 : ℝ) * ((center.2 + radius_km / 70) - (center.2 - radius_km / 70)))
        (resolution : ℝ)
      pure ((center.1 + radius_km / 70) + la, (center.2 - radius_km / 70) + lo))
  pure (radiusFilter center radius_km pts)

lemma mapM_ok_of_forall_ok {α β : Type} (f : α → Except Unit β) (g : α → β) :
    ∀ l : List α, (∀ a ∈ l, f a = .ok (g a)) → l.mapM f = .ok (l.map g) := by
  intro l
  induction l with
  | nil => intro _; rfl
  | cons a l ih =>
    intro h
    rw [List.mapM_cons, h a (by simp), ih fun b hb => h b (by simp [hb])]
    rfl

/-- C9: with `resolution == 0` the lattice-coordinate computation divides by
zero, so grid generation raises (Python `ZeroDivisionError`, modelled as
`.error`) even though the single-cell lattice `[(0, 0)]` exists; for every
`resolution ≥ 1` it is total, returning normally with the same points as the
pure model `build_points_from_grid`. -/
theorem grid_resolution_zero_division :
    (∀ (center : ℝ × ℝ) (radius_km : ℝ),
      build_points_from_gridE center radius_km 0 = .error ()) ∧
    (∀ (center : ℝ × ℝ) (radius_km : ℝ) (resolution : ℕ), 1 ≤ resolution →
      build_points_from_gridE center radius_km resolution =
        .ok (build_points_from_grid center radius_km resolution)) := by
  constructor
  · intro center radius_km
    have hprod : (List.range (0 + 1)) ×ˢ (List.range (0 + 1)) =
        [((0 : ℕ), (0 : ℕ))] := rfl
    have hdiv0 : pydiv 0 0 = Except.error () := by
      unfold pydiv
      rw [if_pos rfl]
    unfold build_points_from_gridE
    rw [hprod, List.mapM_cons]
    simp only [Nat.cast_zero, zero_mul]
    rw [hdiv0]
    rfl
  · intro center radius_km resolution hres
    have hne : ((resolution : ℕ) : ℝ) ≠ 0 := by
      simp only [ne_eq, Nat.cast_eq_zero]
      omega
    unfold build_points_from_gridE
    rw [mapM_ok_of_forall_ok _
      (fun xy : ℕ × ℕ =>
        ((center.1 + radius_km / 70) +
            ((xy.1 : ℝ) *
                ((center.1 - radius_km / 70) - (center.1 + radius_km / 70)) /
              (resolution : ℝ)),
          (center.2 - radius_km / 70) +
            ((xy.2 : ℝ) *
                ((center.2 + radius_km / 70) - (center.2 - radius_km / 70)) /
              (resolution : ℝ))))
      _ ?_]
    · rfl
    · intro xy _
      unfold pydiv
      rw [if_neg hne, if_neg hne]
      rfl

lemma cos_pi_div_180_nonneg : 0 ≤ Real.cos (Real.pi / 180) := by
  apply Real.cos_nonneg_of_mem_Icc
  constructor
  · nlinarith [Real.pi_pos]
  · nlinarith [Real.pi_pos]

/-- The haversine `a`-value of any of the four corner lattice points of the
`resolution = 1`, `radius = 70` grid around the origin. -/
lemma havA_corner {x y : ℝ} (hx : x = 1 ∨ x = -1) (hy : y = 1 ∨ y = -1) :
    havA (x, y) ((0 : ℝ), (0 : ℝ)) =
      Real.sin (Real.pi / 360) ^ 2 +
        Real.cos (Real.pi / 180) * Real.sin (Real.pi / 360) ^ 2 := by
  have e1 : ∀ u : ℝ, u = 1 ∨ u = -1 →
      Real.sin ((radians 0 - radians u) / 2) ^ 2 =
        Real.sin (Real.pi / 360) ^ 2 := by
    intro u hu
    rcases hu with hu | hu <;> subst hu
    · rw [show (radians 0 - radians 1) / 2 = -(Real.pi / 360) by
        unfold radians; ring, Real.sin_neg]
      ring
    · rw [show (radians 0 - radians (-1)) / 2 = Real.pi / 360 by
        unfold radians; ring]
  have e2 : ∀ u : ℝ, u = 1 ∨ u = -1 →
      Real.cos (radians u) = Real.cos (Real.pi / 180) := by
    intro u hu
    rcases hu with hu | hu <;> subst hu
    · rw [show radians 1 = Real.pi / 180 by unfold radians; ring]
    · rw [show radians (-1) = -(Real.pi / 180) by unfold radians; ring,
        Real.cos_neg]
  unfold havA
  dsimp only
  rw [e1 x hx, e1 y hy, e2 x hx,
    show radians 0 = 0 by unfold radians; ring, Real.cos_zero]
  ring

/-- Each of the four corner lattice points of the `resolution = 1` grid lies
strictly farther than 70 km from the origin (roughly 157 km away). -/
lemma corner_far {x y : ℝ} (hx : x = 1 ∨ x = -1) (hy : y = 1 ∨ y = -1) :
    ¬ distance_km (x, y) ((0 : ℝ), (0 : ℝ)) ≤ 70 := by
  intro hle
  set s := Real.sin (Real.pi / 360) with hs
  set c := Real.cos (Real.pi / 180) with hc
  have hs0 : (0 : ℝ) < Real.pi / 360 := by positivity
  have hs1 : Real.pi / 360 ≤ 1 := by nlinarith [Real.pi_lt_four]
  have hsin_pos : 0 < s := by
    rw [hs]
    exact Real.sin_pos_of_pos_of_lt_pi hs0 (by nlinarith [Real.pi_pos])
  have hsin_lt : s < Real.pi / 360 := Real.sin_lt hs0
  have hsin_gt : Real.pi / 360 - (Real.pi / 360) ^ 3 / 4 < s :=
    Real.sin_gt_sub_cube hs0 hs1
  have hc0 : 0 ≤ c := cos_pi_div_180_nonneg
  have hc1 : c ≤ 1 := Real.cos_le_one _
  have hA : havA (x, y) ((0 : ℝ), (0 : ℝ)) = s ^ 2 + c * s ^ 2 :=
    havA_corner hx hy
  have hA0 : 0 ≤ havA (x, y) ((0 : ℝ), (0 : ℝ)) := by
    rw [hA]
    nlinarith [sq_nonneg s]
  have hA1 : havA (x, y) ((0 : ℝ), (0 : ℝ)) ≤ 1 := by
    rw [hA]
    nlinarith [hsin_lt, hsin_pos, Real.pi_lt_four]
  have hsqrt_lb : s ≤ Real.sqrt (havA (x, y) ((0 : ℝ), (0 : ℝ))) := by
    have h1 : s ^ 2 ≤ havA (x, y) ((0 : ℝ), (0 : ℝ)) := by
      rw [hA]
      nlinarith [sq_nonneg s]
    calc s = Real.sqrt (s ^ 2) := (Real.sqrt_sq hsin_pos.le).symm
    _ ≤ _ := Real.sqrt_le_sqrt h1
  have hsqrt_ub : Real.sqrt (havA (x, y) ((0 : ℝ), (0 : ℝ))) ≤ 1 :=
    Real.sqrt_le_one.mpr hA1
  have harcsin : Real.sqrt (havA (x, y) ((0 : ℝ), (0 : ℝ))) ≤
      Real.arcsin (Real.sqrt (havA (x, y) ((0 : ℝ), (0 : ℝ)))) :=
    self_le_arcsin (Real.sqrt_nonneg _) hsqrt_ub
  rw [distance_km_eq_arcsin _ _ hA0 hA1] at hle
  have hcube : (Real.pi / 360) ^ 3 ≤ ((4 : ℝ) / 360) ^ 3 := by
    apply pow_le_pow_left₀ (by positivity)
    nlinarith [Real.pi_lt_four]
  have hslow : (0.0087 : ℝ) < s := by
    nlinarith [hsin_gt, hcube, Real.pi_gt_d2]
  linarith [hsqrt_lb, harcsin, hslow, hle]

/-- C3 counterexample: with `center = (0, 0)`, `radius_km = 70` and
`resolution = 1` the 2×2 lattice consists of the four bounding-box corners,
all ≈157 km from the center, so the returned list is empty — in particular
neither the center nor its nearest lattice neighbour is included. -/
theorem grid_counterexample :
    build_points_from_grid ((0 : ℝ), (0 : ℝ)) 70 1 = [] := by
  have hlat : gridLattice ((0 : ℝ), (0 : ℝ)) 70 1 =
      [((1 : ℝ), (-1 : ℝ)), (1, 1), (-1, -1), (-1, 1)] := by
    have hprod : (List.range (1 + 1)) ×ˢ (List.range (1 + 1)) =
        [((0 : ℕ), (0 : ℕ)), (0, 1), (1, 0), (1, 1)] := rfl
    unfold gridLattice
    rw [hprod]
    simp only [List.map_cons, List.map_nil]
    norm_num
  unfold build_points_from_grid radiusFilter
  rw [hlat]
  rw [List.filter_eq_nil_iff]
  intro p hp
  simp only [List.mem_cons, List.not_mem_nil, or_false] at hp
  have hfar : ¬ distance_km p ((0 : ℝ), (0 : ℝ)) ≤ 70 := by
    rcases hp with hp | hp | hp | hp <;> subst hp
    · exact corner_far (Or.inl rfl) (Or.inr rfl)
    · exact corner_far (Or.inl rfl) (Or.inl rfl)
    · exact corner_far (Or.inr rfl) (Or.inr rfl)
    · exact corner_far (Or.inr rfl) (Or.inl rfl)
  simpa using hfar

/-- C3 amended: grid generation builds the `(resolution+1) × (resolution+1)`
lattice over the 1-degree-per-70-km bounding box and returns exactly the
lattice points within haversine distance `radius_km` of the center; every
returned point is within the radius, and the center itself is included
whenever the resolution is even (for odd resolutions the center is not a
lattice point, and for `resolution = 1` the result can even be empty). -/
theorem grid_within_radius_amended :
    ∀ (center : ℝ × ℝ) (radius_km : ℝ) (resolution : ℕ),
      0 < radius_km → 1 ≤ resolution →
      ((gridLattice center radius_km resolution).length =
          (resolution + 1) * (resolution + 1)) ∧
        (∀ p, p ∈ build_points_from_grid center radius_km resolution ↔
          p ∈ gridLattice center radius_km resolution ∧
            distance_km p center ≤ radius_km) ∧
        (∀ p ∈ build_points_from_grid center radius_km resolution,
          distance_km p center ≤ radius_km) ∧
        (Even resolution →
          center ∈ build_points_from_grid center radius_km resolution) := by
  intro center radius_km resolution hr hres
  have hmem : ∀ p, p ∈ build_points_from_grid center radius_km resolution ↔
      p ∈ gridLattice center radius_km resolution ∧
        distance_km p center ≤ radius_km := by
    intro p
    unfold build_points_from_grid radiusFilter
    rw [List.mem_filter]
    simp
  refine ⟨?_, hmem, ?_, ?_⟩
  · unfold gridLattice
    rw [List.length_map, List.length_product, List.length_range]
  · intro p hp
    exact ((hmem p).mp hp).2
  · rintro ⟨m, hm⟩
    have hm1 : 1 ≤ m := by omega
    have hmr : ((resolution : ℕ) : ℝ) = 2 * (m : ℝ) := by
      rw [hm]
      push_cast
      ring
    have hcenter : center ∈ gridLattice center radius_km resolution := by
      unfold gridLattice
      rw [List.mem_map]
      refine ⟨(m, m), ?_, ?_⟩
      · rw [List.mem_product]
        constructor <;> (rw [List.mem_range]; omega)
      · have hm0 : ((m : ℕ) : ℝ) ≠ 0 := by
          simp only [ne_eq, Nat.cast_eq_zero]
          omega
        rw [hmr]
        dsimp only
        rw [Prod.ext_iff]
        constructor <;> (field_simp; ring)
    refine (hmem center).mpr ⟨hcenter, ?_⟩
    rw [distance_km_self]
    exact hr.le

/-- Witness for C3 amended, at `center = (0, 0)`, `radius_km = 70`,
`resolution = 2`: the lattice has 9 points, membership in the result is the
radius filter, and the center is included. -/
theorem grid_within_radius_amended_witness :
    (0 : ℝ) < 70 ∧ 1 ≤ 2 ∧
      ((gridLattice ((0 : ℝ), (0 : ℝ)) 70 2).length = 3 * 3 ∧
        (∀ p, p ∈ build_points_from_grid ((0 : ℝ), (0 : ℝ)) 70 2 ↔
          p ∈ gridLattice ((0 : ℝ), (0 : ℝ)) 70 2 ∧
            distance_km p ((0 : ℝ), (0 : ℝ)) ≤ 70) ∧
        (∀ p ∈ build_points_from_grid ((0 : ℝ), (0 : ℝ)) 70 2,
          distance_km p ((0 : ℝ), (0 : ℝ)) ≤ 70) ∧
        (Even 2 →
          ((0 : ℝ), (0 : ℝ)) ∈ build_points_from_grid ((0 : ℝ), (0 : ℝ)) 70 2)) :=
  ⟨by norm_num, by norm_num,
    grid_within_radius_amended ((0 : ℝ), (0 : ℝ)) 70 2 (by norm_num) (by norm_num)⟩

/-- Witness for C9: at resolution 1 the checked model returns normally and
agrees with the pure model. -/
theorem grid_resolution_zero_division_witness :
    1 ≤ 1 ∧
      build_points_from_gridE ((0 : ℝ), (0 : ℝ)) 1 1 =
        .ok (build_points_from_grid ((0 : ℝ), (0 : ℝ)) 1 1) :=
  ⟨le_rfl, grid_resolution_zero_division.2 ((0 : ℝ), (0 : ℝ)) 1 1 le_rfl⟩

/-! ### Lookup client (`fetch_best_panoid`, source lines 81-120) -/

/-- One parsed panorama candidate dict, as produced by the external
`streetview.panoids_from_response`: the `panoid` key may be missing
(`none`), and the candidate's own `lat`/`lon` values may fail `float(...)`
parsing, in which case `coords` is `none`. -/
structure Pano where
  panoid : Option String
  coords : Option (ℝ × ℝ)

/-- The candidate ranking key `d_km` (source lines 107-111): haversine
distance from the query point, or `+inf` (`⊤`) when the candidate's own
coordinates fail to parse. -/
noncomputable def d_km (q : ℝ × ℝ) (p : Pano) : WithTop ℝ :=
  match p.coords with
  | none => ⊤
  | some xy => (distance_km q xy : WithTop ℝ)

open Classical in
/-- The accumulator loop of Python's `min(..., key=f)`: replace the current
best exactly when a later element's key is strictly smaller, so the first
minimal element wins ties. -/
noncomputable def pyMinAux {α : Type} (f : α → WithTop ℝ) (best : α) :
    List α → α
  | [] => best
  | x :: l => pyMinAux f (if f x < f best then x else best) l

/-- `min(panoids, key=d_km)` (source line 113) for a candidate list (the
source only calls it on non-empty lists; on `[]` Python `min` would raise,
modelled as `none`). -/
noncomputable def minBy {α : Type} (f : α → WithTop ℝ) : List α → Option α
  | [] => none
  | a :: l => some (pyMinAux f a l)

/-- Outcome of one attempt of the lookup: an exception anywhere in the
attempt (transport error, non-2xx HTTP status, unparseable response body)
is `fail`; otherwise the parsed candidate list. -/
inductive Attempt where
  | fail : Attempt
  | ok : List Pano → Attempt

/-- Observable result of a `fetch_best_panoid` run: the returned value, the
number of attempts actually made, and the sleeps performed between failed
attempts in seconds (floats modelled as ℚ; the delays are powers of two
capped at 10, which binary floats represent exactly). -/
structure FetchResult where
  result : Option Pano
  attemptsMade : ℕ
  sleeps : List ℚ

/-- The retry loop of `fetch_best_panoid` (source lines 94-120), with the
outcome of the `i`-th attempt abstracted as `att i`. `fuel` is the number of
loop iterations remaining (initially `max_retries`), `i` the current attempt
index and `delay` the current backoff delay. A successfully parsed empty
candidate list returns `None` at once; a non-empty list returns the
`d_km`-minimal candidate; a failure either gives up (`attempt ==
max_retries - 1`) or sleeps `delay` and doubles it, capping at 10.0 s. -/
noncomputable def fetchAux (att : ℕ → Attempt) (q : ℝ × ℝ) :
    ℕ → ℕ → ℚ → FetchResult
  | 0, _, _ => ⟨none, 0, []⟩
  | fuel + 1, i, delay =>
    match att i with
    | .ok ps =>
      if ps.isEmpty then ⟨none, 1, []⟩ else ⟨minBy (d_km q) ps, 1, []⟩
    | .fail =>
      if fuel = 0 then ⟨none, 1, []⟩
      else
        let r := fetchAux att q fuel (i + 1) (min (delay * 2) 10)
        ⟨r.result, r.attemptsMade + 1, delay :: r.sleeps⟩

/-- `fetch_best_panoid(lat, lon, session, search_radius_m, max_retries=4)`:
run the retry loop from attempt 0 with initial delay 1.0 (source line 94). -/
noncomputable def fetch_best_panoid (att : ℕ → Attempt) (q : ℝ × ℝ)
    (max_retries : ℕ) : FetchResult :=
  fetchAux att q max_retries 0 1

/-- The backoff delay before the `j`-th sleep, starting from delay `d`. -/
def backoff (d : ℚ) : ℕ → ℚ
  | 0 => d
  | j + 1 => min (backoff d j * 2) 10

lemma backoff_shift (d : ℚ) : ∀ j, backoff d (j + 1) = backoff (min (d * 2) 10) j := by
  intro j
  induction j with
  | zero => rfl
  | succ j ih =>
    rw [show backoff d (j + 1 + 1) = min (backoff d (j + 1) * 2) 10 from rfl,
      ih]
    rfl

lemma backoff_one (j : ℕ) : backoff 1 j = min ((2 : ℚ) ^ j) 10 := by
  induction j with
  | zero => norm_num [backoff]
  | succ j ih =>
    rw [show backoff 1 (j + 1) = min (backoff 1 j * 2) 10 from rfl, ih]
    rcases le_or_lt ((2 : ℚ) ^ j) 10 with h | h
    · rw [min_eq_left h, pow_succ]
    · have h2 : (10 : ℚ) ≤ 2 ^ (j + 1) := by
        rw [pow_succ]
        nlinarith
      rw [min_eq_right h.le, min_eq_right (by norm_num : (10 : ℚ) ≤ 10 * 2),
        min_eq_right h2]

lemma backoff_cons (d : ℚ) (n : ℕ) :
    d :: (List.range n).map (backoff (min (d * 2) 10)) =
      (List.range (n + 1)).map (backoff d) := by
  rw [List.range_succ_eq_map, List.map_cons, List.map_map]
  congr 1
  apply List.map_congr_left
  intro j _
  exact (backoff_shift d j).symm

lemma fetchAux_attempts_le (att : ℕ → Attempt) (q : ℝ × ℝ) :
    ∀ (fuel i : ℕ) (delay : ℚ),
      (fetchAux att q fuel i delay).attemptsMade ≤ fuel := by
  intro fuel
  induction fuel with
  | zero => intro i delay; simp [fetchAux]
  | succ fuel ih =>
    intro i delay
    rcases hatt : att i with _ | ps
    · by_cases hf : fuel = 0
      · subst hf
        simp [fetchAux, hatt]
      · have := ih (i + 1) (min (delay * 2) 10)
        simp only [fetchAux, hatt, if_neg hf]
        omega
    · by_cases he : ps.isEmpty
      · simp [fetchAux, hatt, he]
      · simp [fetchAux, hatt, he]

lemma fetchAux_success (att : ℕ → Attempt) (q : ℝ × ℝ) :
    ∀ (k fuel i : ℕ) (delay : ℚ) (ps : List Pano), k < fuel →
      (∀ j < k, att (i + j) = .fail) →
      att (i + k) = .ok ps → ps ≠ [] →
      fetchAux att q fuel i delay =
        ⟨minBy (d_km q) ps, k + 1, (List.range k).map (backoff delay)⟩ := by
  intro k
  induction k with
  | zero =>
    intro fuel i delay ps hk _ hs hne
    match fuel, hk with
    | fuel + 1, _ =>
      rw [Nat.add_zero] at hs
      have he : ps.isEmpty = false := by
        cases ps
        · exact absurd rfl hne
        · rfl
      simp [fetchAux, hs, he]
  | succ k ih =>
    intro fuel i delay ps hk hf hs hne
    match fuel, hk with
    | fuel + 1, _ =>
      have hi : att i = .fail := by simpa using hf 0 (by omega)
      have hfne : fuel ≠ 0 := by omega
      simp only [fetchAux, hi, if_neg hfne]
      rw [ih fuel (i + 1) (min (delay * 2) 10) ps (by omega)
        (fun j hj => by
          rw [show i + 1 + j = i + (j + 1) by ring]
          exact hf (j + 1) (by omega))
        (by rw [show i + 1 + k = i + (k + 1) by ring]; exact hs) hne]
      simp only
      rw [backoff_cons]

lemma fetchAux_all_fail (att : ℕ → Attempt) (q : ℝ × ℝ) :
    ∀ (fuel i : ℕ) (delay : ℚ), 1 ≤ fuel →
      (∀ j < fuel, att (i + j) = .fail) →
      fetchAux att q fuel i delay =
        ⟨none, fuel, (List.range (fuel - 1)).map (backoff delay)⟩ := by
  intro fuel
  induction fuel with
  | zero => intro i delay h; omega
  | succ fuel ih =>
    intro i delay _ hall
    have hi : att i = .fail := by simpa using hall 0 (by omega)
    by_cases hf : fuel = 0
    · subst hf
      simp [fetchAux, hi]
    · simp only [fetchAux, hi, if_neg hf]
      rw [ih (i + 1) (min (delay * 2) 10) (by omega)
        (fun j hj => by
          rw [show i + 1 + j = i + (j + 1) by ring]
          exact hall (j + 1) (by omega))]
      simp only
      obtain ⟨f, rfl⟩ : ∃ f, fuel = f + 1 := ⟨fuel - 1, by omega⟩
      rw [show f + 1 - 1 = f from rfl, backoff_cons,
        show f + 1 + 1 - 1 = f + 1 from rfl]

/-- C2: `fetch_best_panoid` makes at most `max_retries` total attempts
(default 4); the sleeps between failed attempts start at 1.0 s, double each
time and are capped at 10.0 s; `k < max_retries` failures followed by a
successfully parsed non-empty candidate list return the best candidate
after `k` sleeps; failing all `max_retries` attempts returns `None` without
raising; and a successfully parsed empty candidate list returns `None`
immediately, with no retry and no sleep. -/
theorem fetch_retry_policy :
    (∀ (att : ℕ → Attempt) (q : ℝ × ℝ) (max_retries : ℕ),
      (fetch_best_panoid att q max_retries).attemptsMade ≤ max_retries) ∧
    (∀ (att : ℕ → Attempt) (q : ℝ × ℝ) (max_retries k : ℕ) (ps : List Pano),
      k < max_retries → (∀ j < k, att j = .fail) → att k = .ok ps →
      ps ≠ [] →
      fetch_best_panoid att q max_retries =
        ⟨minBy (d_km q) ps, k + 1,
          (List.range k).map (fun j => min ((2 : ℚ) ^ j) 10)⟩) ∧
    (∀ (att : ℕ → Attempt) (q : ℝ × ℝ) (max_retries : ℕ), 1 ≤ max_retries →
      (∀ j < max_retries, att j = .fail) →
      fetch_best_panoid att q max_retries =
        ⟨none, max_retries,
          (List.range (max_retries - 1)).map (fun j => min ((2 : ℚ) ^ j) 10)⟩) ∧
    (∀ (att : ℕ → Attempt) (q : ℝ × ℝ) (max_retries : ℕ), 1 ≤ max_retries →
      att 0 = .ok [] →
      fetch_best_panoid att q max_retries = ⟨none, 1, []⟩) := by
  refine ⟨?_, ?_, ?_, ?_⟩
  · intro att q max_retries
    exact fetchAux_attempts_le att q max_retries 0 1
  · intro att q max_retries k ps hk hf hs hne
    unfold fetch_best_panoid
    rw [fetchAux_success att q k max_retries 0 1 ps hk
      (fun j hj => by simpa using hf j hj) (by simpa using hs) hne]
    refine congrArg _ ?_
    exact List.map_congr_left fun j _ => backoff_one j
  · intro att q max_retries h1 hall
    unfold fetch_best_panoid
    rw [fetchAux_all_fail att q max_retries 0 1 h1
      (fun j hj => by simpa using hall j hj)]
    refine congrArg _ ?_
    exact List.map_congr_left fun j _ => backoff_one j
  · intro att q max_retries h1 hs
    unfold fetch_best_panoid
    obtain ⟨f, rfl⟩ : ∃ f, max_retries = f + 1 := ⟨max_retries - 1, by omega⟩
    simp [fetchAux, hs]

/-- A concrete candidate used by witnesses. -/
def panoW : Pano := ⟨some "w", some ((0 : ℝ), (0 : ℝ))⟩

/-- Witness attempt trace: attempts 0 and 1 fail, attempt 2 parses a single
candidate. -/
def attW : ℕ → Attempt
  | 0 => .fail
  | 1 => .fail
  | _ => .ok [panoW]

/-- Witness for C2 at the default `max_retries = 4`: two failures then a
success return the best candidate on the third attempt after sleeping 1 s
and 2 s. -/
theorem fetch_retry_policy_witness :
    2 < 4 ∧ (∀ j < 2, attW j = .fail) ∧ attW 2 = .ok [panoW] ∧
      ([panoW] : List Pano) ≠ [] ∧
      fetch_best_panoid attW ((0 : ℝ), (0 : ℝ)) 4 =
        ⟨minBy (d_km ((0 : ℝ), (0 : ℝ))) [panoW], 2 + 1,
          (List.range 2).map (fun j => min ((2 : ℚ) ^ j) 10)⟩ :=
  ⟨by omega,
    fun j hj => by interval_cases j <;> rfl,
    rfl,
    by simp,
    fetch_retry_policy.2.1 attW ((0 : ℝ), (0 : ℝ)) 4 2 [panoW] (by omega)
      (fun j hj => by interval_cases j <;> rfl) rfl (by simp)⟩

lemma pyMinAux_le_best {α : Type} (f : α → WithTop ℝ) :
    ∀ (l : List α) (best : α), f (pyMinAux f best l) ≤ f best := by
  intro l
  induction l with
  | nil => intro best; exact le_rfl
  | cons x l ih =>
    intro best
    by_cases hx : f x < f best
    · calc f (pyMinAux f best (x :: l)) = f (pyMinAux f x l) := by
            rw [pyMinAux, if_pos hx]
      _ ≤ f x := ih x
      _ ≤ f best := hx.le
    · rw [show pyMinAux f best (x :: l) = pyMinAux f best l by
        rw [pyMinAux, if_neg hx]]
      exact ih best

lemma pyMinAux_le_all {α : Type} (f : α → WithTop ℝ) :
    ∀ (l : List α) (best : α) (c : α), c ∈ l →
      f (pyMinAux f best l) ≤ f c := by
  intro l
  induction l with
  | nil => intro best c hc; exact absurd hc (List.not_mem_nil c)
  | cons x l ih =>
    intro best c hc
    have hstep : pyMinAux f best (x :: l) =
        pyMinAux f (if f x < f best then x else best) l := rfl
    rcases List.mem_cons.mp hc with hc | hc
    · subst hc
      rw [hstep]
      calc f (pyMinAux f (if f c < f best then c else best) l) ≤
          f (if f c < f best then c else best) :=
            pyMinAux_le_best f l _
      _ ≤ f c := by
            by_cases hcb : f c < f best
            · rw [if_pos hcb]
            · rw [if_neg hcb]
              exact not_lt.mp hcb
    · rw [hstep]
      exact ih _ c hc

lemma pyMinAux_first {α : Type} (f : α → WithTop ℝ) :
    ∀ (l : List α) (best : α),
      ∃ l1 l2, best :: l = l1 ++ (pyMinAux f best l) :: l2 ∧
        ∀ c ∈ l1, f (pyMinAux f best l) < f c := by
  intro l
  induction l with
  | nil =>
    intro best
    exact ⟨[], [], rfl, by simp⟩
  | cons x l ih =>
    intro best
    by_cases hx : f x < f best
    · have hstep : pyMinAux f best (x :: l) = pyMinAux f x l := by
        rw [pyMinAux, if_pos hx]
      obtain ⟨l1, l2, hdec, hlt⟩ := ih x
      refine ⟨best :: l1, l2, ?_, ?_⟩
      · rw [hstep, List.cons_append, ← hdec]
      · intro c hc
        rcases List.mem_cons.mp hc with hc | hc
        · subst hc
          rw [hstep]
          exact lt_of_le_of_lt (pyMinAux_le_best f l x) hx
        · rw [hstep]
          exact hlt c hc
    · have hstep : pyMinAux f best (x :: l) = pyMinAux f best l := by
        rw [pyMinAux, if_neg hx]
      obtain ⟨l1, l2, hdec, hlt⟩ := ih best
      match l1, hdec with
      | [], hdec =>
        have hbest : pyMinAux f best l = best := by
          have := (List.cons.injEq _ _ _ _).mp hdec.symm
          exact this.1
        have htail : l = l2 := by
          have := (List.cons.injEq _ _ _ _).mp hdec.symm
          exact this.2.symm
        refine ⟨[], x :: l2, ?_, by simp⟩
        rw [hstep, hbest, List.nil_append, htail]
      | a :: l1, hdec =>
        have hhead : a = best := by
          have := (List.cons.injEq _ _ _ _).mp hdec
          exact this.1.symm
        have htail : l = l1 ++ pyMinAux f best l :: l2 := by
          have := (List.cons.injEq _ _ _ _).mp hdec
          exact this.2
        have hltbest : f (pyMinAux f best l) < f best := by
          have := hlt a (by simp)
          rwa [hhead] at this
        refine ⟨best :: x :: l1, l2, ?_, ?_⟩
        · rw [hstep, List.cons_append, List.cons_append, ← htail]
        · intro c hc
          rcases List.mem_cons.mp hc with hc | hc
          · subst hc
            rw [hstep]
            exact hltbest
          · rcases List.mem_cons.mp hc with hc | hc
            · subst hc
              rw [hstep]
              exact lt_of_lt_of_le hltbest (not_lt.mp hx)
            · rw [hstep]
              exact hlt c (by simp [hc])

/-- C5: for a non-empty candidate list, `min(panoids, key=d_km)` returns a
member of the list minimizing the distance key; a candidate whose own
coordinates fail to parse (key `+inf`) is never selected while a parseable
candidate exists; among ties the first candidate in response order wins;
and a successful first attempt makes `fetch_best_panoid` return exactly
this selection. -/
theorem fetch_nearest_selection :
    (∀ (q : ℝ × ℝ) (ps : List Pano), ps ≠ [] →
      ∃ b, minBy (d_km q) ps = some b ∧ b ∈ ps ∧
        (∀ c ∈ ps, d_km q b ≤ d_km q c) ∧
        ((∃ c ∈ ps, c.coords ≠ none) → b.coords ≠ none) ∧
        (∃ l1 l2, ps = l1 ++ b :: l2 ∧ ∀ c ∈ l1, d_km q b < d_km q c)) ∧
    (∀ (att : ℕ → Attempt) (q : ℝ × ℝ) (max_retries : ℕ) (ps : List Pano),
      1 ≤ max_retries → att 0 = .ok ps →
      (fetch_best_panoid att q max_retries).result = minBy (d_km q) ps) := by
  constructor
  · intro q ps hne
    match ps with
    | [] => exact absurd rfl hne
    | a :: l =>
      set b := pyMinAux (d_km q) a l with hb
      obtain ⟨l1, l2, hdec, hlt⟩ := pyMinAux_first (d_km q) l a
      refine ⟨b, rfl, ?_, ?_, ?_, ⟨l1, l2, hdec, hlt⟩⟩
      · rw [hdec]
        simp
      · intro c hc
        rcases List.mem_cons.mp hc with hc | hc
        · rw [hc]
          exact pyMinAux_le_best (d_km q) l a
        · exact pyMinAux_le_all (d_km q) l a c hc
      · rintro ⟨c, hc, hcoords⟩ hbnone
        have hbtop : d_km q b = ⊤ := by
          unfold d_km
          rw [hbnone]
        have hble : d_km q b ≤ d_km q c := by
          rcases List.mem_cons.mp hc with hc | hc
          · rw [hc]
            exact pyMinAux_le_best (d_km q) l a
          · exact pyMinAux_le_all (d_km q) l a c hc
        have hctop : d_km q c = ⊤ := top_le_iff.mp (hbtop ▸ hble)
        rcases hcc : c.coords with _ | xy
        · exact hcoords hcc
        · rw [show d_km q c = ((distance_km q xy : ℝ) : WithTop ℝ) by
            unfold d_km; rw [hcc]] at hctop
          exact WithTop.coe_ne_top hctop
  · intro att q max_retries ps h1 hs
    obtain ⟨f, rfl⟩ : ∃ f, max_retries = f + 1 := ⟨max_retries - 1, by omega⟩
    match ps with
    | [] => simp [fetch_best_panoid, fetchAux, hs, minBy]
    | a :: l => simp [fetch_best_panoid, fetchAux, hs, minBy]

/-- A second concrete candidate for the C5 witness. -/
def panoC : Pano := ⟨some "c", some ((0 : ℝ), (1 : ℝ))⟩

/-- Witness for C5 at a concrete singleton candidate list and a first-attempt
success. -/
theorem fetch_nearest_selection_witness :
    ([panoC] : List Pano) ≠ [] ∧
      (∃ b, minBy (d_km ((0 : ℝ), (0 : ℝ))) [panoC] = some b ∧ b ∈ [panoC] ∧
        (∀ c ∈ [panoC], d_km ((0 : ℝ), (0 : ℝ)) b ≤ d_km ((0 : ℝ), (0 : ℝ)) c) ∧
        ((∃ c ∈ [panoC], c.coords ≠ none) → b.coords ≠ none) ∧
        (∃ l1 l2, [panoC] = l1 ++ b :: l2 ∧
          ∀ c ∈ l1, d_km ((0 : ℝ), (0 : ℝ)) b < d_km ((0 : ℝ), (0 : ℝ)) c)) ∧
      1 ≤ 1 ∧ (fun _ : ℕ => Attempt.ok [panoC]) 0 = .ok [panoC] ∧
      (fetch_best_panoid (fun _ => .ok [panoC]) ((0 : ℝ), (0 : ℝ)) 1).result =
        minBy (d_km ((0 : ℝ), (0 : ℝ))) [panoC] :=
  ⟨by simp,
    fetch_nearest_selection.1 ((0 : ℝ), (0 : ℝ)) [panoC] (by simp),
    le_rfl, rfl,
    fetch_nearest_selection.2 (fun _ => .ok [panoC]) ((0 : ℝ), (0 : ℝ)) 1
      [panoC] le_rfl rfl⟩

/-! ### Discovery engine (`worker` / `run_requests`, source lines 123-191) -/

/-- The shared mutable state of one discovery run (source lines 158-160):
the `seen_panoids` set, the accepted `unique_panoids` sequence, and the
`processed`/`unique` counters of the `stats` dict. -/
structure RunState where
  seen_panoids : Finset String
  unique_panoids : List Pano
  processed : ℕ
  unique : ℕ

/-- The initial run state: `set()`, `[]`, zero counters. -/
def initState : RunState := ⟨∅, [], 0, 0⟩

/-- The body of `worker` for one dequeued point (source lines 131-146), with
the outcome of `fetch_best_panoid` for this point passed as `best?`:
increment `processed`; then, if a candidate was returned and is a dict with
a truthy (present and non-empty) `panoid`, and the id is not yet in the seen
set, record the id, append the candidate and bump `unique` — all under the
lock, so the check-and-insert is atomic. -/
def workerStep (s : RunState) (best? : Option Pano) : RunState :=
  let s1 : RunState := { s with processed := s.processed + 1 }
  match best? with
  | none => s1
  | some best =>
    match best.panoid with
    | none => s1
    | some pid =>
      if pid = "" then s1
      else if pid ∈ s1.seen_panoids then s1
      else { s1 with
        seen_panoids := insert pid s1.seen_panoids,
        unique_panoids := s1.unique_panoids ++ [best],
        unique := s1.unique + 1 }

/-- `run_requests` (source lines 149-191), sequentialized: every queued
point is processed by exactly one worker, and all state mutations happen
atomically under the single lock, so a completed run computes the fold of
`workerStep` over the point list (here in queue order; the invariants below
hold for any order). The lookup client is abstracted as `lookup`. -/
def run_requests (lookup : ℝ × ℝ → Option Pano)
    (points : List (ℝ × ℝ)) : RunState :=
  points.foldl (fun s p => workerStep s (lookup p)) initState

/-- The dedup-gate invariant of a run state. -/
def EngineInv (s : RunState) : Prop :=
  s.unique = s.seen_panoids.card ∧
  s.unique = s.unique_panoids.length ∧
  (s.unique_panoids.map Pano.panoid).Nodup ∧
  ∀ b ∈ s.unique_panoids,
    ∃ pid, b.panoid = some pid ∧ pid ≠ "" ∧ pid ∈ s.seen_panoids

lemma workerStep_processed (s : RunState) (best? : Option Pano) :
    (workerStep s best?).processed = s.processed + 1 := by
  unfold workerStep
  rcases best? with _ | best
  · rfl
  · rcases hpan : best.panoid with _ | pid
    · simp [hpan]
    · by_cases h1 : pid = ""
      · simp [hpan, h1]
      · by_cases h2 : pid ∈ s.seen_panoids
        · simp [hpan, h1, h2]
        · simp [hpan, h1, h2]

lemma workerStep_skip (s : RunState) (c : Pano) (pid : String)
    (hpan : c.panoid = some pid) (hmem : pid ∈ s.seen_panoids) :
    workerStep s (some c) = { s with processed := s.processed + 1 } := by
  unfold workerStep
  by_cases h1 : pid = ""
  · simp [hpan, h1]
  · simp [hpan, h1, hmem]

lemma workerStep_new (s : RunState) (c : Pano) (pid : String)
    (hpan : c.panoid = some pid) (hne : pid ≠ "")
    (hmem : pid ∉ s.seen_panoids) :
    workerStep s (some c) =
      ⟨insert pid s.seen_panoids, s.unique_panoids ++ [c],
        s.processed + 1, s.unique + 1⟩ := by
  unfold workerStep
  simp [hpan, hne, hmem]

lemma workerStep_inv (s : RunState) (best? : Option Pano)
    (h : EngineInv s) : EngineInv (workerStep s best?) := by
  obtain ⟨h1, h2, h3, h4⟩ := h
  have hskip : EngineInv { s with processed := s.processed + 1 } :=
    ⟨h1, h2, h3, h4⟩
  rcases best? with _ | best
  · exact hskip
  · rcases hpan : best.panoid with _ | pid
    · unfold workerStep
      simpa [hpan] using hskip
    · by_cases he : pid = ""
      · unfold workerStep
        simpa [hpan, he] using hskip
      · by_cases hmem : pid ∈ s.seen_panoids
        · rw [workerStep_skip s best pid hpan hmem]
          exact hskip
        · rw [workerStep_new s best pid hpan he hmem]
          refine ⟨?_, ?_, ?_, ?_⟩
          · simp [Finset.card_insert_of_not_mem hmem, h1]
          · simp [h2]
          · rw [List.map_append]
            rw [List.nodup_append]
            refine ⟨h3, by simp, ?_⟩
            intro x hx hx2
            simp only [List.map_cons, List.map_nil, List.mem_cons,
              List.not_mem_nil, or_false] at hx2
            subst hx2
            obtain ⟨b, hb, hbpan⟩ := List.mem_map.mp hx
            obtain ⟨pid2, hpid2, _, hpid2mem⟩ := h4 b hb
            rw [hpid2, hpan] at hbpan
            obtain rfl : pid2 = pid := by
              simpa using hbpan
            exact hmem hpid2mem
          · intro b hb
            rcases List.mem_append.mp hb with hb | hb
            · obtain ⟨pid2, hp1, hp2, hp3⟩ := h4 b hb
              exact ⟨pid2, hp1, hp2, Finset.mem_insert_of_mem hp3⟩
            · simp only [List.mem_cons, List.not_mem_nil, or_false] at hb
              subst hb
              exact ⟨pid, hpan, he, Finset.mem_insert_self pid _⟩

lemma foldl_inv (lookup : ℝ × ℝ → Option Pano) :
    ∀ (points : List (ℝ × ℝ)) (s : RunState), EngineInv s →
      EngineInv (points.foldl (fun s p => workerStep s (lookup p)) s) := by
  intro points
  induction points with
  | nil => intro s h; exact h
  | cons p rest ih =>
    intro s h
    exact ih _ (workerStep_inv s (lookup p) h)

lemma foldl_processed (lookup : ℝ × ℝ → Option Pano) :
    ∀ (points : List (ℝ × ℝ)) (s : RunState),
      (points.foldl (fun s p => workerStep s (lookup p)) s).processed =
        s.processed + points.length := by
  intro points
  induction points with
  | nil => intro s; simp
  | cons p rest ih =>
    intro s
    rw [List.foldl_cons, ih, workerStep_processed]
    simp only [List.length_cons]
    omega

lemma foldl_seen_const (lookup : ℝ × ℝ → Option Pano) (pid : String) :
    ∀ (points : List (ℝ × ℝ)) (s : RunState),
      (∀ p ∈ points, ∃ c, lookup p = some c ∧ c.panoid = some pid) →
      pid ∈ s.seen_panoids →
      (points.foldl (fun s p => workerStep s (lookup p)) s).unique =
          s.unique ∧
        (points.foldl (fun s p => workerStep s (lookup p)) s).seen_panoids =
          s.seen_panoids := by
  intro points
  induction points with
  | nil => intro s _ _; exact ⟨rfl, rfl⟩
  | cons p rest ih =>
    intro s hconst hmem
    obtain ⟨c, hc, hpan⟩ := hconst p (by simp)
    rw [List.foldl_cons, hc, workerStep_skip s c pid hpan hmem]
    exact ih _ (fun p2 hp2 => hconst p2 (by simp [hp2])) hmem

/-- C1: for every completed run, ids in the accepted sequence are pairwise
distinct, `unique` equals both the seen-set size and the accepted-sequence
length, `processed` equals the initial point count; and a lookup client that
returns the same (truthy) candidate id for every one of the N ≥ 1 points
yields `unique = 1` and `processed = N`. -/
theorem engine_dedup_invariants :
    ∀ (lookup : ℝ × ℝ → Option Pano) (points : List (ℝ × ℝ)),
      ((run_requests lookup points).unique_panoids.map Pano.panoid).Nodup ∧
      (run_requests lookup points).unique =
        (run_requests lookup points).seen_panoids.card ∧
      (run_requests lookup points).unique =
        (run_requests lookup points).unique_panoids.length ∧
      (run_requests lookup points).processed = points.length ∧
      (∀ pid : String, pid ≠ "" → points ≠ [] →
        (∀ p ∈ points, ∃ c, lookup p = some c ∧ c.panoid = some pid) →
        (run_requests lookup points).unique = 1 ∧
          (run_requests lookup points).processed = points.length) := by
  intro lookup points
  have hinv : EngineInv (run_requests lookup points) :=
    foldl_inv lookup points initState ⟨rfl, rfl, List.nodup_nil, by simp [initState]⟩
  have hproc : (run_requests lookup points).processed = points.length := by
    unfold run_requests
    rw [foldl_processed]
    simp [initState]
  refine ⟨hinv.2.2.1, hinv.1, hinv.2.1, hproc, ?_⟩
  intro pid hne hnonempty hconst
  refine ⟨?_, hproc⟩
  match points, hnonempty with
  | p :: rest, _ =>
    obtain ⟨c, hc, hpan⟩ := hconst p (by simp)
    unfold run_requests
    rw [List.foldl_cons, hc,
      workerStep_new initState c pid hpan hne (by simp [initState])]
    have := foldl_seen_const lookup pid rest
      ⟨insert pid ∅, [c], 1, 1⟩
      (fun p2 hp2 => hconst p2 (by simp [hp2]))
      (by simp)
    simpa [initState] using this.1

/-- Witness for C1 with a constant lookup client over two points: one unique
id, two processed points. -/
theorem engine_dedup_invariants_witness :
    ("w" : String) ≠ "" ∧
      ([((0 : ℝ), (0 : ℝ)), ((1 : ℝ), (1 : ℝ))] :
        List (ℝ × ℝ)) ≠ [] ∧
      (∀ p ∈ ([((0 : ℝ), (0 : ℝ)), ((1 : ℝ), (1 : ℝ))] : List (ℝ × ℝ)),
        ∃ c, (fun _ : ℝ × ℝ => some panoW) p = some c ∧
          c.panoid = some "w") ∧
      (run_requests (fun _ => some panoW)
          [((0 : ℝ), (0 : ℝ)), ((1 : ℝ), (1 : ℝ))]).unique = 1 ∧
      (run_requests (fun _ => some panoW)
          [((0 : ℝ), (0 : ℝ)), ((1 : ℝ), (1 : ℝ))]).processed =
        ([((0 : ℝ), (0 : ℝ)), ((1 : ℝ), (1 : ℝ))] : List (ℝ × ℝ)).length := by
  refine ⟨by decide, by simp, fun p _ => ⟨panoW, rfl, rfl⟩, ?_⟩
  exact (engine_dedup_invariants (fun _ => some panoW)
    [((0 : ℝ), (0 : ℝ)), ((1 : ℝ), (1 : ℝ))]).2.2.2.2 "w" (by decide)
    (by simp) (fun p _ => ⟨panoW, rfl, rfl⟩)

/-- A candidate with no truthy panoid, for the C10 witness. -/
def panoBad : Pano := ⟨none, none⟩

/-- C10: every accepted candidate carries a truthy (present, non-empty)
panoid; a worker that receives a candidate without one still increments
`processed` but leaves the seen set, the results sequence and the `unique`
counter untouched. -/
theorem results_have_truthy_panoid :
    (∀ (lookup : ℝ × ℝ → Option Pano) (points : List (ℝ × ℝ)),
      ∀ b ∈ (run_requests lookup points).unique_panoids,
        ∃ pid, b.panoid = some pid ∧ pid ≠ "") ∧
    (∀ (s : RunState) (c : Pano),
      (c.panoid = none ∨ c.panoid = some "") →
      workerStep s (some c) = { s with processed := s.processed + 1 }) := by
  constructor
  · intro lookup points b hb
    have hinv : EngineInv (run_requests lookup points) :=
      foldl_inv lookup points initState ⟨rfl, rfl, List.nodup_nil, by simp [initState]⟩
    obtain ⟨pid, h1, h2, _⟩ := hinv.2.2.2 b hb
    exact ⟨pid, h1, h2⟩
  · intro s c hc
    unfold workerStep
    rcases hc with hc | hc
    · simp [hc]
    · simp [hc]

/-- Witness for C10: a run that accepts a candidate, whose panoid is then
truthy; and the skip behaviour of a candidate with no panoid key. -/
theorem results_have_truthy_panoid_witness :
    (panoW ∈ (run_requests (fun _ => some panoW)
        [((0 : ℝ), (0 : ℝ))]).unique_panoids ∧
      ∃ pid, panoW.panoid = some pid ∧ pid ≠ "") ∧
      ((panoBad.panoid = none ∨ panoBad.panoid = some "") ∧
        workerStep initState (some panoBad) =
          { initState with processed := initState.processed + 1 }) := by
  have hrun : (run_requests (fun _ => some panoW)
      [((0 : ℝ), (0 : ℝ))]).unique_panoids = [panoW] := rfl
  have hmem : panoW ∈ (run_requests (fun _ => some panoW)
      [((0 : ℝ), (0 : ℝ))]).unique_panoids := by
    rw [hrun]
    simp
  exact ⟨⟨hmem,
      (results_have_truthy_panoid.1 (fun _ => some panoW)
        [((0 : ℝ), (0 : ℝ))] panoW hmem)⟩,
    ⟨Or.inl rfl,
      results_have_truthy_panoid.2 initState panoBad (Or.inl rfl)⟩⟩

/-! ### Worker pool concurrency bound (source lines 149-191) -/

/-- Phase of one worker coroutine: waiting on the queue, awaiting its single
in-flight HTTP request, or done after consuming a `None` sentinel. -/
inductive WPhase where
  | idle : WPhase
  | busy : WPhase
  | halted : WPhase
deriving DecidableEq

/-- Interleaving-semantics state of the pool: the shared queue (a `none`
entry is a shutdown sentinel, source line 187) and the phases of the spawned
workers. -/
structure PoolState where
  queue : List (Option (ℝ × ℝ))
  workers : List WPhase

/-- One scheduler step of the pool: an idle worker dequeues a point and
starts its single request (each worker has at most one request in flight,
because `await fetch_best_panoid(...)` is sequential inside the worker
loop); a busy worker finishes its request and returns to the queue; an idle
worker consumes a sentinel and stops. -/
inductive PoolStep : PoolState → PoolState → Prop where
  | start (s : PoolState) (i : ℕ) (p : ℝ × ℝ)
      (rest : List (Option (ℝ × ℝ)))
      (hw : s.workers[i]? = some .idle) (hq : s.queue = some p :: rest) :
      PoolStep s ⟨rest, s.workers.set i .busy⟩
  | finish (s : PoolState) (i : ℕ) (hw : s.workers[i]? = some .busy) :
      PoolStep s ⟨s.queue, s.workers.set i .idle⟩
  | halt (s : PoolState) (i : ℕ) (rest : List (Option (ℝ × ℝ)))
      (hw : s.workers[i]? = some .idle) (hq : s.queue = none :: rest) :
      PoolStep s ⟨rest, s.workers.set i .halted⟩

/-- The number of simultaneously in-flight requests. -/
def inflight (s : PoolState) : ℕ := s.workers.count .busy

/-- The initial pool state (source lines 154-170): the queue seeded with
every point, and exactly `concurrency` workers spawned, all initially
idle. -/
def initPool (points : List (ℝ × ℝ)) (concurrency : ℕ) : PoolState :=
  ⟨points.map some, List.replicate concurrency .idle⟩

/-- The `aiohttp.TCPConnector(limit=concurrency)` connection-pool bound
(source line 163). -/
def connector_limit (concurrency : ℕ) : ℕ := concurrency

lemma poolStep_workers_length {s t : PoolState} (h : PoolStep s t) :
    t.workers.length = s.workers.length := by
  cases h <;> simp

/-- C8: in every state reachable by any interleaving of worker steps from
the initial pool state, the number of in-flight requests is at most
`concurrency` — the worker count spawned by `run_requests` — and at most the
connection-pool limit, which is set to the same value, regardless of the
size of the point queue. -/
theorem concurrency_bound :
    ∀ (points : List (ℝ × ℝ)) (concurrency : ℕ) (s : PoolState),
      Relation.ReflTransGen PoolStep (initPool points concurrency) s →
      (initPool points concurrency).workers.length = concurrency ∧
        inflight s ≤ concurrency ∧
        inflight s ≤ connector_limit concurrency := by
  intro points concurrency s h
  have hlen : s.workers.length = concurrency := by
    induction h with
    | refl => simp [initPool]
    | tail _ hstep ih => rw [poolStep_workers_length hstep, ih]
  have hcount : inflight s ≤ concurrency := by
    calc inflight s ≤ s.workers.length := List.count_le_length _ _
    _ = concurrency := hlen
  exact ⟨by simp [initPool], hcount, hcount⟩

/-- Witness for C8 at the (reachable) initial state with concurrency 3. -/
theorem concurrency_bound_witness :
    Relation.ReflTransGen PoolStep (initPool [] 3) (initPool [] 3) ∧
      (initPool [] 3).workers.length = 3 ∧
      inflight (initPool [] 3) ≤ 3 ∧
      inflight (initPool [] 3) ≤ connector_limit 3 :=
  ⟨Relation.ReflTransGen.refl,
    concurrency_bound [] 3 (initPool [] 3) Relation.ReflTransGen.refl⟩

end Panoid
